import Mathlib

/-!
Shallow embedding of the wrangler manifest-resolution core
(`src/settings/toml/manifest.rs`) and proofs about its specification.

The manifest file itself (`manifest.rs`) is embedded faithfully.  The
companion modules it uses (`environment.rs`, `deploy_config.rs`,
`site.rs`, `kv_namespace.rs`, `target_type.rs`, `target.rs`, and the
external `validate_worker_name` predicate) are not part of the sources
at hand; their data shapes are pinned down by how `manifest.rs` uses
them and by the design document, and each such definition is marked
`Modelled from the spec:` in its doc comment.
-/

namespace Wrangler

/-- Modelled from the spec: `target_kind: enum{Plain, Webpack}`
(`target_type.rs` is not in the sources). -/
inductive TargetType where
  | plain
  | webpack
  deriving Repr, DecidableEq

/-- Modelled from the spec: a KV namespace binding
`{id: string, binding: string, bucket: optional<string>}`
(`kv_namespace.rs` is not in the sources; the field names also appear in
the manifest tests). -/
structure KvNamespace where
  id : String
  binding : String
  bucket : Option String
  deriving Repr, DecidableEq

/-- Modelled from the spec: `site: optional<SiteConfig>`; the site
configuration is opaque to the resolution core (`site.rs` is not in the
sources), so it is modelled as a bucket path. -/
structure Site where
  bucket : String
  deriving Repr, DecidableEq

/-- Modelled from the spec: an environment overlay has the same optional
routing/account/build fields as the top level, plus an optional explicit
`name` and its own `kv_namespaces` (`environment.rs` is not in the
sources; every field below is read by `manifest.rs`).  Overlays cannot
declare a `site`. -/
structure Environment where
  name : Option String := none
  account_id : Option String := none
  workers_dev : Option Bool := none
  route : Option String := none
  routes : Option (List String) := none
  zone_id : Option String := none
  webpack_config : Option String := none
  kv_namespaces : Option (List KvNamespace) := none
  deriving Repr, DecidableEq

/-- The `Manifest` struct of `manifest.rs` (the Document).  The
`env` table is modelled as an association list; `private` is renamed
`privateFlag` because `private` is a Lean keyword. -/
structure Manifest where
  name : String
  target_type : TargetType
  account_id : String
  workers_dev : Option Bool := none
  route : Option String := none
  routes : Option (List String) := none
  zone_id : Option String := none
  webpack_config : Option String := none
  privateFlag : Option Bool := none
  site : Option Site := none
  kv_namespaces : Option (List KvNamespace) := none
  env : Option (List (String × Environment)) := none
  deriving Repr, DecidableEq

/-- The `Target` struct (EffectiveTarget).  `target.rs` is not in the
sources, but `Manifest::get_target` constructs it with exactly these six
fields. -/
structure Target where
  target_type : TargetType
  account_id : String
  webpack_config : Option String
  name : String
  kv_namespaces : Option (List KvNamespace)
  site : Option Site
  deriving Repr, DecidableEq

/-- The `RouteConfig` struct of `deploy_config.rs` (not in the sources);
its five fields are exactly those populated by `Manifest::route_config`. -/
structure RouteConfig where
  account_id : Option String
  workers_dev : Option Bool
  route : Option String
  routes : Option (List String)
  zone_id : Option String
  deriving Repr, DecidableEq

/-- Modelled from the spec: `Zoned{account_id, zone_id, script_name,
routes}` (`deploy_config.rs` is not in the sources). -/
structure Zoned where
  account_id : String
  zone_id : String
  script_name : String
  routes : List String
  deriving Repr, DecidableEq

/-- Modelled from the spec: `Zoneless{account_id, script_name,
workers_dev}` (`deploy_config.rs` is not in the sources). -/
structure Zoneless where
  account_id : String
  script_name : String
  workers_dev : Bool
  deriving Repr, DecidableEq

/-- Modelled from the spec: the `DeployConfig` tagged union. -/
inductive DeployConfig where
  | zoned (z : Zoned)
  | zoneless (z : Zoneless)
  deriving Repr, DecidableEq

/-- The error kinds of the resolution core.  The Rust code fails with
string-typed `failure::Error`s; each distinct bail site is one
constructor here, named as in the design document. -/
inductive Err where
  | nameConflict (duplicates : List String)
  | unknownEnvironment (name : String)
  | noEnvironmentsDefined
  | invalidName (name : String)
  | environmentRouteRequired
  | noTarget
  | ambiguousConfig
  | missingAccountId
  | missingZoneId
  deriving Repr, DecidableEq

/-- The function `Manifest::get_environment`: looks the requested environment name up
in the `env` table; an unknown name fails, as does any name when no
`env` table exists; no requested name yields `none`. -/
def Manifest.get_environment (m : Manifest) (environment_name : Option String) :
    Except Err (Option Environment) :=
  match environment_name with
  | some name =>
    match m.env with
    | some environment_table =>
      match environment_table.lookup name with
      | some environment => .ok (some environment)
      | none => .error (.unknownEnvironment name)
    | none => .error .noEnvironmentsDefined
  | none => .ok none

/-- The function `Manifest::worker_name`: the effective worker name.  The Rust code
calls `get_environment(env_arg).unwrap_or_default()`, so any lookup
error collapses to "no environment" and the top-level name is used. -/
def Manifest.worker_name (m : Manifest) (env_arg : Option String) : String :=
  match m.get_environment env_arg with
  | .ok (some environment) =>
    match environment.name with
    | some name => name
    | none =>
      match env_arg with
      | some env => m.name ++ "-" ++ env
      | none => m.name
  | _ => m.name

/-- The function `Manifest::route_config`: the top level's own routing fields, with
the account id always wrapped in `some`. -/
def Manifest.route_config (m : Manifest) : RouteConfig :=
  { account_id := some m.account_id
    workers_dev := m.workers_dev
    route := m.route
    routes := m.routes
    zone_id := m.zone_id }

/-- Modelled from the spec: `Environment::route_config`
(`environment.rs` is not in the sources).  An overlay that supplies any
routing field of its own (`workers_dev`, `route` or `routes`) yields a
`RouteConfig` built from those fields alone, with the top-level
`account_id`/`zone_id` used only as fallbacks; an overlay that supplies
none yields nothing, and the caller falls back to the top level. -/
def Environment.route_config (e : Environment) (top_account_id : String)
    (top_zone_id : Option String) : Option RouteConfig :=
  if e.workers_dev.isNone ∧ e.route.isNone ∧ e.routes.isNone then
    none
  else
    some
      { account_id := some (e.account_id.getD top_account_id)
        workers_dev := e.workers_dev
        route := e.route
        routes := e.routes
        zone_id :=
          match e.zone_id with
          | some z => some z
          | none => top_zone_id }

/-- Whether a `RouteConfig` carries a non-empty single `route`. -/
def RouteConfig.hasRoute (rc : RouteConfig) : Bool :=
  match rc.route with
  | some r => !(r == "")
  | none => false

/-- Whether a `RouteConfig` carries a non-empty `routes` list. -/
def RouteConfig.hasRoutes (rc : RouteConfig) : Bool :=
  match rc.routes with
  | some rs => !rs.isEmpty
  | none => false

/-- All route patterns of a `RouteConfig`, in order. -/
def RouteConfig.allRoutes (rc : RouteConfig) : List String :=
  (match rc.route with
   | some r => if r = "" then [] else [r]
   | none => []) ++ rc.routes.getD []

/-- Modelled from the spec: `DeployConfig::build`, the route resolver of
`deploy_config.rs` (not in the sources), following the decision table of
the design document: both `route` and `routes` set, or `workers_dev =
true` together with a route, is ambiguous; a route-bearing config is
Zoned and demands a resolvable zone id and a non-empty account id;
`workers_dev = true` alone is Zoneless; nothing at all is rejected as
"no deploy target". -/
def DeployConfig.build (script_name : String) (rc : RouteConfig) :
    Except Err DeployConfig :=
  let wd := rc.workers_dev.getD false
  if rc.hasRoute && rc.hasRoutes then
    .error .ambiguousConfig
  else if wd && (rc.hasRoute || rc.hasRoutes) then
    .error .ambiguousConfig
  else if rc.hasRoute || rc.hasRoutes then
    match rc.zone_id with
    | some zone_id =>
      if zone_id = "" then .error .missingZoneId
      else
        match rc.account_id with
        | some account_id =>
          if account_id = "" then .error .missingAccountId
          else
            .ok (.zoned
              { account_id
                zone_id
                script_name
                routes := rc.allRoutes })
        | none => .error .missingAccountId
    | none => .error .missingZoneId
  else if wd then
    match rc.account_id with
    | some account_id =>
      if account_id = "" then .error .missingAccountId
      else
        .ok (.zoneless { account_id, script_name, workers_dev := true })
    | none => .error .missingAccountId
  else
    .error .noTarget

/-- The function `Manifest::deploy_config`: validates the effective worker name with
the external name predicate first, then resolves routing.  If the
requested overlay supplies a route config of its own, that alone is
built; if it supplies none, the top level's own routing fields are
resolved, and a Zoned outcome there is rejected (environments demand
per-environment routes for zoned deploys) while a Zoneless outcome is
returned.  With no requested environment the top level is resolved
directly.  The external `validate_worker_name` predicate is a parameter,
as the spec treats name-syntax validation as an externally supplied pure
predicate. -/
def Manifest.deploy_config (isValidName : String → Bool) (m : Manifest)
    (env : Option String) : Except Err DeployConfig :=
  let script := m.worker_name env
  if !isValidName script then
    .error (.invalidName script)
  else
    match m.get_environment env with
    | .error e => .error e
    | .ok (some environment) =>
      match environment.route_config m.account_id m.zone_id with
      | some env_route_config => DeployConfig.build script env_route_config
      | none =>
        match DeployConfig.build script m.route_config with
        | .ok (.zoned _) => .error .environmentRouteRequired
        | .ok (.zoneless z) => .ok (.zoneless z)
        | .error e => .error e
    | .ok none => DeployConfig.build script m.route_config

/-- The function `Manifest::get_target`: builds the effective target.  Site projects
are always webpack; the initial target copies the top-level fields, and
a selected overlay then overrides the name, may override `account_id`
and `webpack_config`, and always replaces `kv_namespaces` with its own
(never inherited).  `site` is left as the top-level value in either
case. -/
def Manifest.get_target (m : Manifest) (environment_name : Option String) :
    Except Err Target :=
  let target_type :=
    match m.site with
    | some _ => TargetType.webpack
    | none => m.target_type
  let target : Target :=
    { target_type
      account_id := m.account_id
      webpack_config := m.webpack_config
      name := m.name
      kv_namespaces := m.kv_namespaces
      site := m.site }
  match m.get_environment environment_name with
  | .error e => .error e
  | .ok none => .ok target
  | .ok (some environment) =>
    .ok
      { target with
        name := m.worker_name environment_name
        account_id :=
          match environment.account_id with
          | some account_id => account_id
          | none => target.account_id
        webpack_config :=
          if environment.webpack_config.isSome then environment.webpack_config
          else target.webpack_config
        kv_namespaces := environment.kv_namespaces }

/-- The loop body of `check_for_duplicate_names`: walks the overlays,
carrying the set of names seen so far (seeded with the top-level name)
and the set of duplicates found; a named overlay whose name was already
seen and is not yet recorded as a duplicate is recorded, otherwise the
name is added to the seen set.  Sets are modelled as lists, with
membership as the set operations. -/
def dupScan (names dups : List String) :
    List (String × Environment) → List String
  | [] => dups
  | kv :: rest =>
    match kv.2.name with
    | some name =>
      if name ∈ names ∧ name ∉ dups then
        dupScan names (dups ++ [name]) rest
      else
        dupScan (names ++ [name]) dups rest
    | none => dupScan names dups rest

/-- The function `check_for_duplicate_names`: fails iff the scan found any duplicate,
reporting the duplicate set. -/
def check_for_duplicate_names (m : Manifest) : Except Err Unit :=
  let duplicate_names := dupScan [m.name] [] (m.env.getD [])
  if duplicate_names = [] then .ok () else .error (.nameConflict duplicate_names)

/-- The explicit names of a list of overlay entries, in order. -/
def overlayNames (l : List (String × Environment)) : List String :=
  l.filterMap (fun kv => kv.2.name)

/-- The multiset (as a list) of {top-level name} together with every
overlay name that is set, over which uniqueness is checked. -/
def allNames (m : Manifest) : List String :=
  m.name :: overlayNames (m.env.getD [])

/-- A raw document, before the serde field attributes of the `Manifest`
struct are applied: every field may be absent. -/
structure RawDoc where
  name : Option String := none
  target_type : TargetType
  account_id : Option String := none
  workers_dev : Option Bool := none
  route : Option String := none
  routes : Option (List String) := none
  zone_id : Option String := none
  webpack_config : Option String := none
  privateFlag : Option Bool := none
  site : Option Site := none
  kv_namespaces : Option (List KvNamespace) := none
  env : Option (List (String × Environment)) := none
  deriving Repr, DecidableEq

/-- Deserialization of the `Manifest` struct, following its serde
attributes: `name` and `account_id` are `#[serde(default)]` strings
(absent becomes the empty string); `route` and `zone_id` are
`#[serde(default, with = "string_empty_as_none")]` (absent or the empty
string becomes `none`); the remaining options are taken as given. -/
def Manifest.fromRaw (r : RawDoc) : Manifest :=
  { name := r.name.getD ""
    target_type := r.target_type
    account_id := r.account_id.getD ""
    workers_dev := r.workers_dev
    route :=
      match r.route with
      | some s => if s = "" then none else some s
      | none => none
    routes := r.routes
    zone_id :=
      match r.zone_id with
      | some s => if s = "" then none else some s
      | none => none
    webpack_config := r.webpack_config
    privateFlag := r.privateFlag
    site := r.site
    kv_namespaces := r.kv_namespaces
    env := r.env }

/-- The function `Manifest::new`, after the external file read: deserialize, then
run the uniqueness validator, and return the manifest. -/
def Manifest.construct (r : RawDoc) : Except Err Manifest :=
  let m := Manifest.fromRaw r
  match check_for_duplicate_names m with
  | .ok _ => .ok m
  | .error e => .error e

/-! Concrete fixtures used to witness the theorems below. -/

/-- A manifest with one anonymous overlay named `prod`. -/
def mBase : Manifest :=
  { name := "worker"
    target_type := .webpack
    account_id := "acct"
    env := some [("prod", {})] }

/-- A manifest whose top level resolves to a Zoned config, with one
overlay that supplies no routing fields. -/
def mZonedTop : Manifest :=
  { name := "worker"
    target_type := .webpack
    account_id := "acct"
    route := some "example.com/*"
    zone_id := some "z1"
    env := some [("prod", {})] }

/-- A manifest whose top level resolves to a Zoneless config, with one
overlay that supplies no routing fields. -/
def mZonelessTop : Manifest :=
  { name := "worker"
    target_type := .webpack
    account_id := "acct"
    workers_dev := some true
    env := some [("prod", {})] }

/-- A concrete site configuration. -/
def siteB : Site := { bucket := "public" }

/-- A plain-typed manifest with a site and one overlay. -/
def mSiteEnv : Manifest :=
  { name := "worker"
    target_type := .plain
    account_id := "acct"
    site := some siteB
    env := some [("prod", {})] }

/-- The effective target `mSiteEnv` yields for the `prod` overlay. -/
def tSiteEnv : Target :=
  { target_type := .webpack
    account_id := "acct"
    webpack_config := none
    name := "worker-prod"
    kv_namespaces := none
    site := some siteB }

/-- The effective target `mSiteEnv` yields for the top level. -/
def tSiteTop : Target :=
  { target_type := .webpack
    account_id := "acct"
    webpack_config := none
    name := "worker"
    kv_namespaces := none
    site := some siteB }

/-- A concrete KV namespace. -/
def kvA : KvNamespace := { id := "id1", binding := "KV", bucket := none }

/-- A manifest with top-level KV namespaces and one overlay that sets
none. -/
def mKv : Manifest :=
  { name := "worker"
    target_type := .webpack
    account_id := "acct"
    kv_namespaces := some [kvA]
    env := some [("prod", {})] }

/-- The effective target `mKv` yields for the `prod` overlay. -/
def tKv : Target :=
  { target_type := .webpack
    account_id := "acct"
    webpack_config := none
    name := "worker-prod"
    kv_namespaces := none
    site := none }

/-- A manifest with no environments at all. -/
def mNoEnv : Manifest :=
  { name := "worker"
    target_type := .webpack
    account_id := "acct" }

/-- A manifest with an overlay whose explicit name collides with the
top-level name. -/
def mDup : Manifest :=
  { name := "worker"
    target_type := .webpack
    account_id := "acct"
    env := some [("prod", { name := some "worker" })] }

/-! Theorems. -/

/-- C1: for every Document and environment name `E` that selects an
existing overlay, the effective worker name equals the overlay's
explicit name when one is set and otherwise the concatenation
`"{top_level.name}-{E}"`; with no environment selected it equals the
top-level name. -/
theorem worker_name_resolution (m : Manifest) :
    (∀ E e, m.get_environment (some E) = .ok (some e) →
      m.worker_name (some E) =
        match e.name with
        | some n => n
        | none => m.name ++ "-" ++ E) ∧
    m.worker_name none = m.name := by
  constructor
  · intro E e h
    simp only [Manifest.worker_name, h]
  · rfl

/-- Witness for C1 at a concrete manifest: the `prod` overlay has no
explicit name, so the effective name is the concatenation; with no
environment it is the top-level name. -/
theorem worker_name_resolution_witness :
    mBase.worker_name (some "prod") = "worker" ++ "-" ++ "prod" ∧
    mBase.worker_name none = "worker" :=
  ⟨(worker_name_resolution mBase).1 "prod" {} rfl,
   (worker_name_resolution mBase).2⟩

/-- C8: the effective worker name never fails (it is a total function in
this embedding) and falls back to the top-level name whenever the
environment lookup errors, for unknown names as well as when no
environments are defined. -/
theorem worker_name_fallback (m : Manifest) (env_arg : Option String) (e : Err)
    (h : m.get_environment env_arg = .error e) :
    m.worker_name env_arg = m.name := by
  simp only [Manifest.worker_name, h]

/-- Witness for C8: looking up an unknown environment name errors, and
the effective name is still the top-level name. -/
theorem worker_name_fallback_witness :
    mBase.worker_name (some "nope") = "worker" :=
  worker_name_fallback mBase (some "nope") (.unknownEnvironment "nope") rfl

/-- C10: `deploy_config` validates the effective worker name with the
external predicate before any environment lookup or route resolution:
whenever the name is invalid, the result is the name-validation error,
never a lookup or route error. -/
theorem deploy_config_name_checked_first (p : String → Bool) (m : Manifest)
    (env : Option String) (h : p (m.worker_name env) = false) :
    m.deploy_config p env = .error (.invalidName (m.worker_name env)) := by
  simp only [Manifest.deploy_config, h, Bool.not_false, if_true]

/-- Witness for C10: with a predicate rejecting every name and an
environment name that does not even exist, the result is the invalid
name error, not the lookup error. -/
theorem deploy_config_name_checked_first_witness :
    mBase.deploy_config (fun _ => false) (some "nope") =
      .error (.invalidName "worker") :=
  deploy_config_name_checked_first (fun _ => false) mBase (some "nope") rfl

/-- C9: an `account_id` or `zone_id` supplied as the empty string is
normalized to the unset state in the constructed Document: an
empty-string `zone_id` parses to no `zone_id`, and an empty-string
`account_id` yields exactly the Document obtained when `account_id` is
absent (whose `account_id` is the empty default). -/
theorem empty_string_normalized (r : RawDoc) :
    Manifest.fromRaw { r with zone_id := some "" } =
      Manifest.fromRaw { r with zone_id := none } ∧
    (Manifest.fromRaw { r with zone_id := some "" }).zone_id = none ∧
    Manifest.fromRaw { r with account_id := some "" } =
      Manifest.fromRaw { r with account_id := none } ∧
    (Manifest.fromRaw { r with account_id := none }).account_id = "" :=
  ⟨rfl, rfl, rfl, rfl⟩

/-- C2: the effective target for an overlay has exactly the overlay's
own `kv_namespaces` (none when the overlay sets none); they are never
inherited from the top level. -/
theorem get_target_kv_not_inherited (m : Manifest) (E : String) (e : Environment)
    (t : Target) (henv : m.get_environment (some E) = .ok (some e))
    (ht : m.get_target (some E) = .ok t) :
    t.kv_namespaces = e.kv_namespaces := by
  simp only [Manifest.get_target, henv, Except.ok.injEq] at ht
  rw [← ht]

/-- Witness for C2: top level has a KV namespace, the `prod` overlay has
none, and the overlay's effective target has none. -/
theorem get_target_kv_not_inherited_witness :
    mKv.get_target (some "prod") = .ok tKv ∧ tKv.kv_namespaces = none :=
  ⟨rfl, get_target_kv_not_inherited mKv "prod" {} tKv rfl rfl⟩

/-- Counterexample to C3: a Document whose top level declares a site and
whose `prod` overlay declares none yields an effective target for `prod`
that still carries the top-level site — the claim says it has no site. -/
theorem get_target_site_counterexample :
    mSiteEnv.get_target (some "prod") = .ok tSiteEnv ∧
    tSiteEnv.site ≠ none := by
  exact ⟨rfl, by decide⟩

/-- C3 amended: the effective target always carries the top-level site
unchanged — for the top level and for every overlay (overlays cannot
declare a site of their own, and `get_target` never clears the top-level
one). -/
theorem get_target_site_top_level (m : Manifest) (environment_name : Option String)
    (t : Target) (ht : m.get_target environment_name = .ok t) :
    t.site = m.site := by
  cases h : m.get_environment environment_name with
  | error e =>
    simp only [Manifest.get_target, h] at ht
    exact Except.noConfusion ht
  | ok o =>
    cases o with
    | none =>
      simp only [Manifest.get_target, h, Except.ok.injEq] at ht
      rw [← ht]
    | some environment =>
      simp only [Manifest.get_target, h, Except.ok.injEq] at ht
      rw [← ht]

/-- Witness for the amended C3: the `prod` overlay's effective target
carries exactly the top-level site. -/
theorem get_target_site_top_level_witness :
    tSiteEnv.site = mSiteEnv.site :=
  get_target_site_top_level mSiteEnv (some "prod") tSiteEnv rfl

/-- C6: whenever the Document has a site, every effective target
produced by `get_target` — for the top level or for any environment —
has target kind Webpack, regardless of the declared kind. -/
theorem get_target_webpack_forced (m : Manifest) (environment_name : Option String)
    (t : Target) (hs : m.site.isSome = true)
    (ht : m.get_target environment_name = .ok t) :
    t.target_type = TargetType.webpack := by
  obtain ⟨s, hsite⟩ := Option.isSome_iff_exists.mp hs
  cases h : m.get_environment environment_name with
  | error e =>
    simp only [Manifest.get_target, h] at ht
    exact Except.noConfusion ht
  | ok o =>
    cases o with
    | none =>
      simp only [Manifest.get_target, h, hsite, Except.ok.injEq] at ht
      rw [← ht]
    | some environment =>
      simp only [Manifest.get_target, h, hsite, Except.ok.injEq] at ht
      rw [← ht]

/-- Witness for C6: `mSiteEnv` declares the plain kind but has a site,
and its `prod` effective target has the Webpack kind. -/
theorem get_target_webpack_forced_witness :
    tSiteEnv.target_type = TargetType.webpack :=
  get_target_webpack_forced mSiteEnv (some "prod") tSiteEnv rfl rfl

/-- Counterexample to C7: with a site present and the plain kind
declared, `get_target` with no environment name does not return the
top-level fields unchanged — the target kind comes back Webpack, not the
declared kind. -/
theorem get_target_none_counterexample :
    mSiteEnv.get_target none = .ok tSiteTop ∧
    tSiteTop.target_type ≠ mSiteEnv.target_type := by
  exact ⟨rfl, by decide⟩

/-- C7 amended: resolution with an environment name that matches no
overlay fails with the unknown-environment error; with an environment
name when the Document has no overlay table at all it fails with the
no-environments-defined error; and with no environment name it returns
the top-level fields unchanged, except that the target kind is Webpack
whenever a site is present (and the declared kind otherwise). -/
theorem get_target_lookup (m : Manifest) :
    (∀ E, m.env = none →
      m.get_target (some E) = .error .noEnvironmentsDefined) ∧
    (∀ E table, m.env = some table → table.lookup E = none →
      m.get_target (some E) = .error (.unknownEnvironment E)) ∧
    m.get_target none = .ok
      { target_type :=
          match m.site with
          | some _ => TargetType.webpack
          | none => m.target_type
        account_id := m.account_id
        webpack_config := m.webpack_config
        name := m.name
        kv_namespaces := m.kv_namespaces
        site := m.site } := by
  refine ⟨?_, ?_, rfl⟩
  · intro E henv
    simp only [Manifest.get_target, Manifest.get_environment, henv]
  · intro E table henv hlook
    simp only [Manifest.get_target, Manifest.get_environment, henv, hlook]

/-- Witness for the amended C7: a manifest with no environments rejects
any environment name with the no-environments-defined error, and a
lookup of an unknown name in a manifest with environments fails with the
unknown-environment error. -/
theorem get_target_lookup_witness :
    mNoEnv.get_target (some "prod") = .error .noEnvironmentsDefined ∧
    mBase.get_target (some "nope") = .error (.unknownEnvironment "nope") :=
  ⟨(get_target_lookup mNoEnv).1 "prod" rfl,
   (get_target_lookup mBase).2.1 "nope" [("prod", {})] rfl rfl⟩

/-- C4: when the requested overlay exists but supplies no routing fields
of its own, `deploy_config` resolves the top level's own routing fields;
a Zoned outcome there is rejected with the environment-route-required
error, and a Zoneless outcome is returned as is.  The effective worker
name is assumed to pass the external validity predicate, since the name
check runs first. -/
theorem deploy_config_env_fallback (p : String → Bool) (m : Manifest) (E : String)
    (e : Environment)
    (henv : m.get_environment (some E) = .ok (some e))
    (hname : p (m.worker_name (some E)) = true)
    (hwd : e.workers_dev = none) (hr : e.route = none) (hrs : e.routes = none) :
    (∀ z, DeployConfig.build (m.worker_name (some E)) m.route_config =
        .ok (.zoned z) →
      m.deploy_config p (some E) = .error .environmentRouteRequired) ∧
    (∀ z, DeployConfig.build (m.worker_name (some E)) m.route_config =
        .ok (.zoneless z) →
      m.deploy_config p (some E) = .ok (.zoneless z)) := by
  have hrc : e.route_config m.account_id m.zone_id = none := by
    simp [Environment.route_config, hwd, hr, hrs]
  constructor
  · intro z hb
    simp [Manifest.deploy_config, hname, henv, hrc, hb]
  · intro z hb
    simp [Manifest.deploy_config, hname, henv, hrc, hb]

/-- Witness for C4: a Zoned top level with a routeless `prod` overlay is
rejected, and a Zoneless top level with a routeless `prod` overlay
deploys zonelessly. -/
theorem deploy_config_env_fallback_witness :
    mZonedTop.deploy_config (fun _ => true) (some "prod") =
      .error .environmentRouteRequired ∧
    mZonelessTop.deploy_config (fun _ => true) (some "prod") =
      .ok (.zoneless
        { account_id := "acct", script_name := "worker-prod", workers_dev := true }) :=
  ⟨(deploy_config_env_fallback (fun _ => true) mZonedTop "prod" {}
      rfl rfl rfl rfl rfl).1
      { account_id := "acct", zone_id := "z1", script_name := "worker-prod"
        routes := ["example.com/*"] } rfl,
   (deploy_config_env_fallback (fun _ => true) mZonelessTop "prod" {}
      rfl rfl rfl rfl rfl).2
      { account_id := "acct", script_name := "worker-prod", workers_dev := true }
      rfl⟩

/-- Unfolding: an overlay entry without an explicit name contributes no
overlay name. -/
theorem overlayNames_cons_none {kv : String × Environment}
    {rest : List (String × Environment)} (h : kv.2.name = none) :
    overlayNames (kv :: rest) = overlayNames rest := by
  simp [overlayNames, List.filterMap_cons, h]

/-- Unfolding: an overlay entry with an explicit name contributes it. -/
theorem overlayNames_cons_some {kv : String × Environment} {n : String}
    {rest : List (String × Environment)} (h : kv.2.name = some n) :
    overlayNames (kv :: rest) = n :: overlayNames rest := by
  simp [overlayNames, List.filterMap_cons, h]

/-- Unfolding: the scan skips an unnamed overlay. -/
theorem dupScan_cons_none {kv : String × Environment} {names dups : List String}
    {rest : List (String × Environment)} (h : kv.2.name = none) :
    dupScan names dups (kv :: rest) = dupScan names dups rest := by
  simp only [dupScan, h]

/-- Unfolding: the scan records a previously seen name as a duplicate. -/
theorem dupScan_cons_dup {kv : String × Environment} {n : String}
    {names dups : List String} {rest : List (String × Environment)}
    (h : kv.2.name = some n) (hc : n ∈ names ∧ n ∉ dups) :
    dupScan names dups (kv :: rest) = dupScan names (dups ++ [n]) rest := by
  simp only [dupScan, h]
  rw [if_pos hc]

/-- Unfolding: the scan adds any other name to the seen set. -/
theorem dupScan_cons_new {kv : String × Environment} {n : String}
    {names dups : List String} {rest : List (String × Environment)}
    (h : kv.2.name = some n) (hc : ¬(n ∈ names ∧ n ∉ dups)) :
    dupScan names dups (kv :: rest) = dupScan (names ++ [n]) dups rest := by
  simp only [dupScan, h]
  rw [if_neg hc]

/-- Invariant of the duplicate scan: starting from a duplicate-free
duplicate set contained in the seen set, the scan returns a
duplicate-free list whose members are exactly the already-recorded
duplicates, the seen names occurring among the overlay names, and the
unseen names occurring at least twice among the overlay names. -/
theorem dupScan_spec (l : List (String × Environment)) :
    ∀ names dups : List String, dups.Nodup → (∀ y, y ∈ dups → y ∈ names) →
      (dupScan names dups l).Nodup ∧
      ∀ x, x ∈ dupScan names dups l ↔
        x ∈ dups ∨ (x ∉ dups ∧ x ∈ names ∧ x ∈ overlayNames l) ∨
          (x ∉ names ∧ 2 ≤ (overlayNames l).count x) := by
  induction l with
  | nil =>
    intro names dups hnd hsub
    refine ⟨hnd, fun x => ?_⟩
    simp [dupScan, overlayNames]
  | cons kv rest ih =>
    intro names dups hnd hsub
    cases hn : kv.2.name with
    | none =>
      rw [dupScan_cons_none hn, overlayNames_cons_none hn]
      exact ih names dups hnd hsub
    | some n =>
      by_cases hc : n ∈ names ∧ n ∉ dups
      · rw [dupScan_cons_dup hn hc, overlayNames_cons_some hn]
        have hnd' : (dups ++ [n]).Nodup := by
          simp [List.nodup_append, hnd, hc.2]
        have hsub' : ∀ y, y ∈ dups ++ [n] → y ∈ names := by
          intro y hy
          rcases List.mem_append.mp hy with hy | hy
          · exact hsub y hy
          · rw [List.mem_singleton.mp hy]; exact hc.1
        obtain ⟨ih1, ih2⟩ := ih names (dups ++ [n]) hnd' hsub'
        refine ⟨ih1, fun x => ?_⟩
        rw [ih2 x]
        by_cases hxn : x = n
        · subst hxn
          simp [List.mem_append, hc.1, hc.2]
        · rw [List.count_cons_of_ne hxn]
          simp only [List.mem_append, List.mem_singleton, hxn, or_false,
            List.mem_cons, false_or]
          tauto
      · rw [dupScan_cons_new hn hc, overlayNames_cons_some hn]
        have hsub' : ∀ y, y ∈ dups → y ∈ names ++ [n] := by
          intro y hy
          exact List.mem_append.mpr (Or.inl (hsub y hy))
        obtain ⟨ih1, ih2⟩ := ih (names ++ [n]) dups hnd hsub'
        refine ⟨ih1, fun x => ?_⟩
        rw [ih2 x]
        by_cases hxn : x = n
        · subst hxn
          by_cases hd : x ∈ dups
          · simp [hd]
          · have hnn : x ∉ names := fun hmem => hc ⟨hmem, hd⟩
            constructor
            · intro hx
              rcases hx with hx | ⟨_, _, hx3⟩ | ⟨hx1, _⟩
              · exact absurd hx hd
              · refine Or.inr (Or.inr ⟨hnn, ?_⟩)
                have h1 := List.one_le_count_iff.mpr hx3
                rw [List.count_cons_self]
                omega
              · exact absurd
                  (List.mem_append.mpr (Or.inr (List.mem_singleton.mpr rfl))) hx1
            · intro hx
              rcases hx with hx | ⟨_, hx2, _⟩ | ⟨_, hx2⟩
              · exact absurd hx hd
              · exact absurd hx2 hnn
              · refine Or.inr (Or.inl ⟨hd,
                  List.mem_append.mpr (Or.inr (List.mem_singleton.mpr rfl)), ?_⟩)
                rw [List.count_cons_self] at hx2
                have h1 : 1 ≤ (overlayNames rest).count x := by omega
                exact List.one_le_count_iff.mp h1
        · rw [List.count_cons_of_ne hxn]
          simp only [List.mem_append, List.mem_singleton, hxn, or_false,
            List.mem_cons, false_or]
          tauto

/-- The scan as run by the validator: seeded with the top-level name and
no duplicates, its result is duplicate-free and holds exactly the names
occurring at least twice among {top-level name} ∪ {overlay names}. -/
theorem dupScan_run (m : Manifest) :
    (dupScan [m.name] [] (m.env.getD [])).Nodup ∧
    ∀ x, x ∈ dupScan [m.name] [] (m.env.getD []) ↔
      2 ≤ (allNames m).count x := by
  obtain ⟨h1, h2⟩ := dupScan_spec (m.env.getD []) [m.name] []
    List.nodup_nil (by simp)
  refine ⟨h1, fun x => ?_⟩
  rw [h2 x]
  rw [show allNames m = m.name :: overlayNames (m.env.getD []) from rfl]
  by_cases hx : x = m.name
  · subst hx
    rw [List.count_cons_self]
    constructor
    · intro hx'
      rcases hx' with hx' | ⟨_, _, hx'⟩ | ⟨hx1, _⟩
      · exact absurd hx' (List.not_mem_nil _)
      · have h1 := List.one_le_count_iff.mpr hx'
        omega
      · exact absurd (List.mem_singleton.mpr rfl) hx1
    · intro hx'
      have h1 : 1 ≤ (overlayNames (m.env.getD [])).count m.name := by omega
      exact Or.inr (Or.inl ⟨List.not_mem_nil _, List.mem_singleton.mpr rfl,
        List.one_le_count_iff.mp h1⟩)
  · rw [List.count_cons_of_ne hx]
    constructor
    · intro hx'
      rcases hx' with hx' | ⟨_, hx', _⟩ | ⟨_, hx'⟩
      · exact absurd hx' (List.not_mem_nil _)
      · exact absurd (List.mem_singleton.mp hx') hx
      · exact hx'
    · intro hx'
      exact Or.inr (Or.inr ⟨fun hm => hx (List.mem_singleton.mp hm), hx'⟩)

/-- C5: the duplicate-name check run at Document construction fails
exactly when some name occurs more than once in the multiset
{top-level name} ∪ {overlay names that are set}; the reported duplicate
list holds each duplicated name exactly once (it is duplicate-free and
its members are exactly the names of multiplicity at least two), and the
failure is always a name-conflict error. -/
theorem check_for_duplicate_names_spec (m : Manifest) :
    (check_for_duplicate_names m = .ok () ↔ ∀ x, (allNames m).count x ≤ 1) ∧
    (∀ d, check_for_duplicate_names m = .error (.nameConflict d) →
      d.Nodup ∧ ∀ x, x ∈ d ↔ 2 ≤ (allNames m).count x) ∧
    (∀ e, check_for_duplicate_names m = .error e →
      ∃ d, e = .nameConflict d ∧ d ≠ []) ∧
    (∀ r e, Manifest.construct r = .error e ↔
      check_for_duplicate_names (Manifest.fromRaw r) = .error e) := by
  obtain ⟨hnd, hmem⟩ := dupScan_run m
  refine ⟨?_, ?_, ?_, ?_⟩
  · constructor
    · intro hOk x
      by_contra hgt
      push_neg at hgt
      have hx : x ∈ dupScan [m.name] [] (m.env.getD []) := (hmem x).mpr hgt
      have hne := List.ne_nil_of_mem hx
      simp only [check_for_duplicate_names] at hOk
      rw [if_neg hne] at hOk
      exact Except.noConfusion hOk
    · intro hall
      have h : dupScan [m.name] [] (m.env.getD []) = [] := by
        by_contra h
        obtain ⟨x, hx⟩ := List.exists_mem_of_ne_nil _ h
        have h2c := (hmem x).mp hx
        have h1c := hall x
        omega
      simp only [check_for_duplicate_names]
      rw [if_pos h]
  · intro d hd
    simp only [check_for_duplicate_names] at hd
    by_cases h : dupScan [m.name] [] (m.env.getD []) = []
    · rw [if_pos h] at hd
      exact Except.noConfusion hd
    · rw [if_neg h] at hd
      have hinj := Except.error.inj hd
      have hdup := Err.nameConflict.inj hinj
      rw [← hdup]
      exact ⟨hnd, hmem⟩
  · intro e he
    simp only [check_for_duplicate_names] at he
    by_cases h : dupScan [m.name] [] (m.env.getD []) = []
    · rw [if_pos h] at he
      exact Except.noConfusion he
    · rw [if_neg h] at he
      exact ⟨dupScan [m.name] [] (m.env.getD []),
        (Except.error.inj he).symm, h⟩
  · intro r e
    simp only [Manifest.construct]
    cases h : check_for_duplicate_names (Manifest.fromRaw r) with
    | ok u => simp
    | error e2 => simp

/-- Witness for C5: an overlay whose explicit name equals the top-level
name `worker` fails with exactly that name reported, and `worker` indeed
has multiplicity at least two. -/
theorem check_for_duplicate_names_spec_witness :
    check_for_duplicate_names mDup = .error (.nameConflict ["worker"]) ∧
    ("worker" ∈ ["worker"] ↔ 2 ≤ (allNames mDup).count "worker") :=
  ⟨rfl, ((check_for_duplicate_names_spec mDup).2.1 ["worker"] rfl).2 "worker"⟩

end Wrangler
